import Mathlib

/-!
Verification of the Starknet address validator core
(starknet-validator: format detection, legacy hex validation, Bech32
decoding, SNIP-42 simple addresses, SNIP-43 unified TLV addresses, and
the test-vector generator), shallowly embedded from the TypeScript
source.  Strings are modelled as Lean strings operating on their
character lists; bytes and 5-bit words are natural numbers with
explicit masking; fallible operations return Except.
-/

set_option maxRecDepth 8192

namespace StarknetValidator

/-- AddressFormat: the five format tags assigned by the detector. -/
inductive AddressFormat where
  | legacy
  | public
  | shielded
  | unified
  | unknown
deriving DecidableEq, Repr

/-- Receiver: one parsed TLV record of a unified address. -/
structure Receiver where
  type : Nat
  data : List Nat
  description : Option String
deriving DecidableEq, Repr

/-- ParsedData: the optional parsed fields of a successful validation. -/
structure ParsedData where
  hrp : Option String
  version : Option Nat
  payload : Option (List Nat)
  receivers : Option (List Receiver)
  felt252 : Option String
deriving DecidableEq, Repr

/-- ValidationResult: the uniform result returned by every validator. -/
structure ValidationResult where
  isValid : Bool
  format : AddressFormat
  error : Option String
  parsed : Option ParsedData
deriving DecidableEq, Repr

/-- FELT252_MAX constant: 2^251 - 1. -/
def FELT252_MAX : Nat := 2 ^ 251 - 1

/-- Whitespace characters removed by the string trim operation
(ASCII subset of the JavaScript trim set; all inputs considered here
are ASCII). -/
def jsWhitespace (c : Char) : Bool :=
  c == ' ' || c == '\t' || c == '\n' || c == '\r' || c == '\x0b' || c == '\x0c'

/-- Model of String.prototype.trim on a character list. -/
def trimL (l : List Char) : List Char :=
  ((l.dropWhile jsWhitespace).reverse.dropWhile jsWhitespace).reverse

/-- ASCII lower-casing of a single character (toLowerCase on ASCII). -/
def asciiLower (c : Char) : Char :=
  if 'A' ≤ c ∧ c ≤ 'Z' then Char.ofNat (c.toNat + 32) else c

/-- ASCII upper-casing of a single character (toUpperCase on ASCII). -/
def asciiUpper (c : Char) : Char :=
  if 'a' ≤ c ∧ c ≤ 'z' then Char.ofNat (c.toNat - 32) else c

/-- Character class of the regex [0-9a-fA-F]. -/
def isHexChar (c : Char) : Bool :=
  decide (('0' ≤ c ∧ c ≤ '9') ∨ ('a' ≤ c ∧ c ≤ 'f') ∨ ('A' ≤ c ∧ c ≤ 'F'))

/-- Numeric value of a hexadecimal digit (0 on non-hex input, which is
always guarded against before use). -/
def hexDigitVal (c : Char) : Nat :=
  if '0' ≤ c ∧ c ≤ '9' then c.toNat - 48
  else if 'a' ≤ c ∧ c ≤ 'f' then c.toNat - 87
  else if 'A' ≤ c ∧ c ≤ 'F' then c.toNat - 55
  else 0

/-- Big-endian value of a hex digit string, as computed by
BigInt("0x" + digits). -/
def hexVal (l : List Char) : Nat :=
  l.foldl (fun acc c => 16 * acc + hexDigitVal c) 0

/-- Lowercase hex digit for a value below 16 (Number.toString(16)). -/
def hexChar (n : Nat) : Char :=
  if n < 10 then Char.ofNat (48 + n) else Char.ofNat (87 + n)

/-- Two lowercase hex digits of one byte: b.toString(16).padStart(2, "0"). -/
def byteHexChars (b : Nat) : List Char :=
  [hexChar (b / 16), hexChar (b % 16)]

/-- bytesToHex utility: lowercase hex string of a byte sequence, no
separator. -/
def bytesToHex (bytes : List Nat) : String :=
  String.mk (bytes.foldr (fun b acc => byteHexChars b ++ acc) [])

/-- Big-endian unsigned integer value of a byte sequence, as computed
by BigInt("0x" + bytesToHex bytes) in the source. -/
def beVal (bytes : List Nat) : Nat :=
  bytes.foldl (fun acc b => 256 * acc + b) 0

/-- detectAddressFormat: trim, then ordered prefix matching. -/
def detectAddressFormat (input : String) : AddressFormat :=
  let trimmed := trimL input.data
  if ['0', 'x'].isPrefixOf trimmed then .legacy
  else if "strk1".data.isPrefixOf trimmed then .public
  else if "strkx1".data.isPrefixOf trimmed then .shielded
  else if "strku1".data.isPrefixOf trimmed then .unified
  else .unknown

/-- validateLegacyAddress: validate a 0x-prefixed hex address. -/
def validateLegacyAddress (input : String) : ValidationResult :=
  let trimmed := trimL input.data
  if ¬ (['0', 'x'].isPrefixOf trimmed) then
    ⟨false, .legacy, some "Legacy address must start with 0x", none⟩
  else
    let hexPart := trimmed.drop 2
    if hexPart.length = 0 then
      ⟨false, .legacy, some "Address cannot be empty after 0x", none⟩
    else if ¬ (hexPart.all isHexChar) then
      ⟨false, .legacy, some "Address contains invalid hexadecimal characters", none⟩
    else if hexPart.length > 64 then
      ⟨false, .legacy, some "Address is too long (max 64 hex characters)", none⟩
    else
      let paddedHex := List.replicate (64 - hexPart.length) '0' ++ hexPart
      let bigIntValue := hexVal paddedHex
      if bigIntValue > FELT252_MAX then
        ⟨false, .legacy, some "Address exceeds felt252 maximum value (2^251 - 1)", none⟩
      else
        ⟨true, .legacy, none, some ⟨none, none, none, none,
          some (String.mk ('0' :: 'x' :: paddedHex))⟩⟩

/-! Bech32 codec (npm bech32 2.0.0, bech32 variant, checksum constant 1),
the external collaborator used via bech32.decode / bech32.encode /
bech32.toWords / bech32.fromWords.  JavaScript bitwise operators act on
32-bit integers; all values read below use only the low bits that the
32-bit truncation leaves intact, so plain Nat arithmetic with explicit
masks is observationally identical. -/

/-- Bech32 character set. -/
def bech32Alphabet : List Char := "qpzry9x8gf2tvdw0s3jn54khce6mua7l".data

/-- Character of the alphabet at a 5-bit value. -/
def alphabetChar (n : Nat) : Char := bech32Alphabet.getD n 'q'

/-- Reverse lookup in the alphabet (ALPHABET_MAP). -/
def alphaIdx : List Char → Nat → Char → Option Nat
  | [], _, _ => none
  | a :: as, i, c => if a = c then some i else alphaIdx as (i + 1) c

/-- One step of the Bech32 polynomial-modulus checksum. -/
def polymodStep (pre : Nat) : Nat :=
  let b := pre >>> 25
  ((pre &&& 0x1ffffff) <<< 5) ^^^
    (if b &&& 1 = 1 then 0x3b6a57b2 else 0) ^^^
    (if (b >>> 1) &&& 1 = 1 then 0x26508e6d else 0) ^^^
    (if (b >>> 2) &&& 1 = 1 then 0x1ea119fa else 0) ^^^
    (if (b >>> 3) &&& 1 = 1 then 0x3d4233dd else 0) ^^^
    (if (b >>> 4) &&& 1 = 1 then 0x2a1462b3 else 0)

/-- Checksum state after absorbing the human-readable part (prefixChk);
fails on characters outside the printable ASCII range. -/
def hrpChk (hrp : List Char) : Except String Nat := do
  let chk1 ← hrp.foldlM (fun chk c =>
    let v := c.toNat
    if v < 33 ∨ v > 126 then
      Except.error ("Invalid prefix (" ++ String.mk hrp ++ ")")
    else
      Except.ok (polymodStep chk ^^^ (v >>> 5))) 1
  let chk2 := polymodStep chk1
  Except.ok (hrp.foldl (fun chk c => polymodStep chk ^^^ (c.toNat &&& 0x1f)) chk2)

/-- Index of the last occurrence of a character (lastIndexOf). -/
def lastIdxOf (c : Char) : List Char → Option Nat
  | [] => none
  | a :: as =>
    match lastIdxOf c as with
    | some k => some (k + 1)
    | none => if a = c then some 0 else none

/-- Extraction loop of the 8-to-5-bit conversion: pull out 5-bit words
while at least 5 bits are buffered.  The loop runs bits/5 times, so a
fuel of bits keeps the recursion structural without ever running out. -/
def extractWordsAux : Nat → Nat → Nat → List Nat × Nat
  | 0, _, bits => ([], bits)
  | fuel + 1, value, bits =>
    if 5 ≤ bits then
      let rest := bits - 5
      let r := extractWordsAux fuel value rest
      ((value >>> rest) % 32 :: r.1, r.2)
    else ([], bits)

/-- Word-extraction step on a bit buffer. -/
def extractWords (value bits : Nat) : List Nat × Nat :=
  extractWordsAux bits value bits

/-- Extraction loop of the 5-to-8-bit conversion: pull out bytes while
at least 8 bits are buffered; fuel as in extractWordsAux. -/
def extractBytesAux : Nat → Nat → Nat → List Nat × Nat
  | 0, _, bits => ([], bits)
  | fuel + 1, value, bits =>
    if 8 ≤ bits then
      let rest := bits - 8
      let r := extractBytesAux fuel value rest
      ((value >>> rest) % 256 :: r.1, r.2)
    else ([], bits)

/-- Byte-extraction step on a bit buffer. -/
def extractBytes (value bits : Nat) : List Nat × Nat :=
  extractBytesAux bits value bits

/-- Accumulating loop of bech32.toWords (convert with inBits = 8,
outBits = 5, pad = true). -/
def toWordsAux : List Nat → Nat → Nat → List Nat
  | [], value, bits =>
    if bits > 0 then [(value <<< (5 - bits)) % 32] else []
  | v :: vs, value, bits =>
    let value' := (value <<< 8) ||| v
    let r := extractWords value' (bits + 8)
    r.1 ++ toWordsAux vs value' r.2

/-- bech32.toWords: bytes to 5-bit words with padding. -/
def bech32ToWords (bytes : List Nat) : List Nat := toWordsAux bytes 0 0

/-- Accumulating loop of bech32.fromWords (convert with inBits = 5,
outBits = 8, pad = false). -/
def fromWordsAux : List Nat → Nat → Nat → Except String (List Nat)
  | [], value, bits =>
    if 5 ≤ bits then Except.error "Excess padding"
    else if (value <<< (8 - bits)) % 256 ≠ 0 then Except.error "Non-zero padding"
    else Except.ok []
  | v :: vs, value, bits =>
    let value' := (value <<< 5) ||| v
    let r := extractBytes value' (bits + 5)
    (fromWordsAux vs value' r.2).map (fun out => r.1 ++ out)

/-- bech32.fromWords: 5-bit words back to bytes, rejecting bad padding. -/
def bech32FromWords (words : List Nat) : Except String (List Nat) :=
  fromWordsAux words 0 0

/-- Loop over the data characters of bech32 decode: map each character
through the alphabet, absorb it into the checksum, and collect all but
the final six (checksum) characters as words. -/
def decodeLoop (chk : Nat) : List Char → Except String (Nat × List Nat)
  | [] => Except.ok (chk, [])
  | c :: cs =>
    match alphaIdx bech32Alphabet 0 c with
    | none => Except.error ("Unknown character " ++ String.mk [c])
    | some v =>
      let chk' := polymodStep chk ^^^ v
      (decodeLoop chk' cs).map (fun r =>
        (r.1, if 6 ≤ cs.length then v :: r.2 else r.2))

/-- bech32.encode with the default length limit 90. -/
def bech32Encode (hrpS : String) (words : List Nat) : Except String String :=
  let hrp := hrpS.data
  if hrp.length + 7 + words.length > 90 then Except.error "Exceeds length limit"
  else
    let hrpL := hrp.map asciiLower
    match hrpChk hrpL with
    | Except.error e => Except.error e
    | Except.ok chk0 =>
      match words.foldlM (fun (acc : Nat × List Char) x =>
          if x >>> 5 ≠ 0 then Except.error "Non 5-bit word"
          else Except.ok (polymodStep acc.1 ^^^ x, acc.2 ++ [alphabetChar x]))
          (chk0, []) with
      | Except.error e => Except.error e
      | Except.ok (chk1, dataChars) =>
        let chk2 :=
          polymodStep (polymodStep (polymodStep (polymodStep (polymodStep (polymodStep chk1)))))
        let chk3 := chk2 ^^^ 1
        let checksum :=
          (List.range 6).map (fun i => alphabetChar ((chk3 >>> ((5 - i) * 5)) &&& 0x1f))
        Except.ok (String.mk (hrpL ++ '1' :: dataChars ++ checksum))

/-- bech32.decode with the default length limit 90, returning the
human-readable part and the data words. -/
def bech32Decode (inputS : String) : Except String (String × List Nat) :=
  let str := inputS.data
  if str.length < 8 then Except.error (String.mk str ++ " too short")
  else if str.length > 90 then Except.error "Exceeds length limit"
  else
    let lowered := str.map asciiLower
    let uppered := str.map asciiUpper
    if str ≠ lowered ∧ str ≠ uppered then
      Except.error ("Mixed-case string " ++ String.mk str)
    else
      let s := lowered
      match lastIdxOf '1' s with
      | none => Except.error ("No separator character for " ++ String.mk s)
      | some 0 => Except.error ("Missing prefix for " ++ String.mk s)
      | some split =>
        let hrp := s.take split
        let wordChars := s.drop (split + 1)
        if wordChars.length < 6 then Except.error "Data too short"
        else
          match hrpChk hrp with
          | Except.error e => Except.error e
          | Except.ok chk0 =>
            match decodeLoop chk0 wordChars with
            | Except.error e => Except.error e
            | Except.ok (chkf, ws) =>
              if chkf ≠ 1 then Except.error ("Invalid checksum for " ++ String.mk s)
              else Except.ok (String.mk hrp, ws)

/-- validateSimpleAddress: version, length and felt252 checks for
public/shielded payloads (data is the decoded payload without the
version byte; as a Uint8Array its entries are below 256). -/
def validateSimpleAddress (format : AddressFormat) (hrp : String) (version : Nat)
    (data : List Nat) : ValidationResult :=
  if version ≠ 1 then
    ⟨false, format, some ("Unsupported version: " ++ toString version ++ " (expected 1)"), none⟩
  else if data.length ≠ 32 then
    ⟨false, format, some ("Invalid data length: " ++ toString data.length ++ " bytes (expected 32)"), none⟩
  else if beVal data > FELT252_MAX then
    ⟨false, format, some "Address exceeds felt252 maximum value (2^251 - 1)", none⟩
  else
    ⟨true, format, none, some ⟨some hrp, some version, some data, none,
      some ("0x" ++ bytesToHex data)⟩⟩

/-- TLV parsing loop of validateUnifiedAddress: read a type byte and a
length byte, check the declared length against the remaining bytes,
apply the per-type length rules, and collect receivers in order.  Each
record consumes at least two bytes, so a fuel of the list length keeps
the recursion structural; the zero-fuel case with two or more bytes
left is unreachable (parseTLVAux_fuel below). -/
def parseTLVAux : Nat → List Nat → Except String (List Receiver)
  | _, [] => Except.ok []
  | _, [_] => Except.error "Incomplete TLV record: missing type or length"
  | 0, _ :: _ :: _ => Except.error "Incomplete TLV record: missing type or length"
  | fuel + 1, t :: len :: rest =>
    if rest.length < len then
      Except.error ("Incomplete TLV record: expected " ++ toString len ++
        " bytes but only " ++ toString rest.length ++ " remaining")
    else
      let receiverData := rest.take len
      if t = 0 then
        if len ≠ 32 then
          Except.error ("Invalid public key length: " ++ toString len ++ " bytes (expected 32)")
        else
          (parseTLVAux fuel (rest.drop len)).map
            (fun rs => ⟨t, receiverData, some "Public key receiver"⟩ :: rs)
      else if t = 1 then
        if len ≠ 32 then
          Except.error ("Invalid shielded receiver length: " ++ toString len ++ " bytes (expected 32)")
        else
          (parseTLVAux fuel (rest.drop len)).map
            (fun rs => ⟨t, receiverData, some "Shielded receiver"⟩ :: rs)
      else
        (parseTLVAux fuel (rest.drop len)).map
          (fun rs => ⟨t, receiverData, some ("Unknown receiver type " ++ toString t)⟩ :: rs)

/-- The TLV parsing loop at its canonical fuel. -/
def parseTLV (data : List Nat) : Except String (List Receiver) :=
  parseTLVAux data.length data

/-- validateUnifiedAddress: version check, TLV parsing, and the
at-least-one-receiver rule. -/
def validateUnifiedAddress (hrp : String) (version : Nat) (data : List Nat) :
    ValidationResult :=
  if version ≠ 1 then
    ⟨false, .unified, some ("Unsupported version: " ++ toString version ++ " (expected 1)"), none⟩
  else
    match parseTLV data with
    | Except.error msg => ⟨false, .unified, some msg, none⟩
    | Except.ok receivers =>
      if receivers.length = 0 then
        ⟨false, .unified, some "Unified address must contain at least one receiver", none⟩
      else
        ⟨true, .unified, none, some ⟨some hrp, some version, some data, some receivers, none⟩⟩

/-- validateBech32Address: trim, decode, check the HRP, convert the
words to bytes, split off the version byte, and dispatch to the
unified or simple validator; decode and conversion failures surface as
a Bech32 decode error tagged with the detected format. -/
def validateBech32Address (input : String) (expectedFormat : AddressFormat) :
    ValidationResult :=
  let trimmed := String.mk (trimL input.data)
  match bech32Decode trimmed with
  | Except.error msg =>
    ⟨false, expectedFormat, some ("Bech32 decode error: " ++ msg), none⟩
  | Except.ok (pfx, words) =>
    let expectedHrp :=
      match expectedFormat with
      | .public => "strk"
      | .shielded => "strkx"
      | .unified => "strku"
      | _ => ""
    if pfx ≠ expectedHrp then
      ⟨false, expectedFormat,
        some ("Invalid HRP: expected " ++ expectedHrp ++ ", got " ++ pfx), none⟩
    else
      match bech32FromWords words with
      | Except.error msg =>
        ⟨false, expectedFormat, some ("Bech32 decode error: " ++ msg), none⟩
      | Except.ok payload =>
        match payload with
        | [] => ⟨false, expectedFormat, some "Empty payload", none⟩
        | version :: data =>
          if expectedFormat = .unified then
            validateUnifiedAddress pfx version data
          else
            validateSimpleAddress expectedFormat pfx version data

/-- validateStarknetAddress: reject empty input, then detect the format
and dispatch to the matching validator. -/
def validateStarknetAddress (input : String) : ValidationResult :=
  if input.data.isEmpty then
    ⟨false, .unknown, some "Input must be a non-empty string", none⟩
  else
    match detectAddressFormat input with
    | .legacy => validateLegacyAddress input
    | .public => validateBech32Address input .public
    | .shielded => validateBech32Address input .shielded
    | .unified => validateBech32Address input .unified
    | .unknown =>
      ⟨false, .unknown,
        some "Unknown address format. Supported formats: 0x... (legacy), strk1... (public), strkx1... (shielded), strku1... (unified)",
        none⟩

/-- The public branch of generateTestVector, with the 32 sampled random
bytes made explicit: mask the first byte with 0x0f, prepend version
byte 1, convert to words, and bech32-encode with HRP strk (falling back
to a fixed literal if encoding throws). -/
def generateTestVectorPublic (sampled : List Nat) : String :=
  let addressData :=
    match sampled with
    | [] => []
    | b :: bs => (b % 16) :: bs
  let payload := 1 :: addressData
  match bech32Encode "strk" (bech32ToWords payload) with
  | Except.ok s => s
  | Except.error _ =>
    "strk1qqqqqqqqqqqqqqqqqqqqqqqqqqqqqqqqqqqqqqqqqqqqqqqqqqqqqqqqqqqqqqqfc6h6a"

/-- The shielded branch of generateTestVector, identical to the public
branch except for the HRP strkx and the fallback literal. -/
def generateTestVectorShielded (sampled : List Nat) : String :=
  let addressData :=
    match sampled with
    | [] => []
    | b :: bs => (b % 16) :: bs
  let payload := 1 :: addressData
  match bech32Encode "strkx" (bech32ToWords payload) with
  | Except.ok s => s
  | Except.error _ =>
    "strkx1qqqqqqqqqqqqqqqqqqqqqqqqqqqqqqqqqqqqqqqqqqqqqqqqqqqqqqqqqqqqqq7cs4az"

/-- A concrete unified address with a single unknown-type receiver
(type 5, one data byte), produced by the embedded bech32 encoder. -/
def uniTestAddr : String :=
  match bech32Encode "strku" (bech32ToWords [1, 5, 1, 42]) with
  | Except.ok s => s
  | Except.error _ => ""

/-- The receiver parsed from uniTestAddr. -/
def uniTestReceiver : Receiver := ⟨5, [42], some "Unknown receiver type 5"⟩

/-- The parsed data of uniTestAddr. -/
def uniTestParsed : ParsedData :=
  ⟨some "strku", some 1, some [5, 1, 42], some [uniTestReceiver], none⟩

/-! Theorems -/

theorem validateLegacyAddress_format (input : String) :
    (validateLegacyAddress input).format = .legacy := by
  simp only [validateLegacyAddress]
  repeat' split
  all_goals rfl

theorem validateSimpleAddress_format (format : AddressFormat) (hrp : String)
    (version : Nat) (data : List Nat) :
    (validateSimpleAddress format hrp version data).format = format := by
  simp only [validateSimpleAddress]
  repeat' split
  all_goals rfl

theorem validateUnifiedAddress_format (hrp : String) (version : Nat) (data : List Nat) :
    (validateUnifiedAddress hrp version data).format = .unified := by
  simp only [validateUnifiedAddress]
  repeat' split
  all_goals rfl

theorem validateBech32Address_format (input : String) (f : AddressFormat) :
    (validateBech32Address input f).format = f := by
  simp only [validateBech32Address]
  repeat' split
  all_goals first
    | rfl
    | exact validateSimpleAddress_format ..
    | (rename_i hf; rw [hf]; exact validateUnifiedAddress_format ..)

/-- C8: the format field of validateStarknetAddress always equals the
tag assigned by detectAddressFormat, even when validation fails. -/
theorem C8_format_reflects_detector (input : String) :
    (validateStarknetAddress input).format = detectAddressFormat input := by
  unfold validateStarknetAddress
  split
  · next hempty =>
    have hddata : input.data = [] := by
      simpa [List.isEmpty_iff] using hempty
    unfold detectAddressFormat
    rw [hddata]
    rfl
  · split
    · next hdet => rw [validateLegacyAddress_format, hdet]
    · next hdet => rw [validateBech32Address_format, hdet]
    · next hdet => rw [validateBech32Address_format, hdet]
    · next hdet => rw [validateBech32Address_format, hdet]
    · next hdet => rw [hdet]

/-- C1: the public branch of generateTestVector is not self-consistent:
when all 32 sampled bytes are 0xff, the masked address data encodes the
value 2^252 - 1, which exceeds FELT252_MAX, so the generated address
fails validation instead of round-tripping. -/
theorem C1_public_vector_fails_roundtrip :
    validateStarknetAddress (generateTestVectorPublic (List.replicate 32 255)) =
      ⟨false, .public, some "Address exceeds felt252 maximum value (2^251 - 1)", none⟩ ∧
    FELT252_MAX < beVal (255 % 16 :: List.replicate 31 255) := by
  constructor
  · decide
  · decide

/-- C7: a unified payload with version byte 1 and zero TLV records is
invalid with the at-least-one-receiver error, at the unified validator
and on a concrete bech32-encoded address whose payload is just the
version byte. -/
theorem C7_zero_receivers_invalid :
    (∀ hrp : String, validateUnifiedAddress hrp 1 [] =
      ⟨false, .unified, some "Unified address must contain at least one receiver", none⟩) ∧
    ((bech32Encode "strku" (bech32ToWords [1])).toOption).map validateStarknetAddress =
      some ⟨false, .unified,
        some "Unified address must contain at least one receiver", none⟩ := by
  constructor
  · intro hrp
    rfl
  · decide

theorem parseTLVAux_fuel (f1 : Nat) : ∀ (f2 : Nat) (data : List Nat),
    data.length ≤ f1 → data.length ≤ f2 → parseTLVAux f1 data = parseTLVAux f2 data := by
  induction f1 with
  | zero =>
    intro f2 data h1 _
    have hdata : data = [] := List.length_eq_zero.mp (Nat.le_zero.mp h1)
    subst hdata
    cases f2 <;> rfl
  | succ f1 ih =>
    intro f2 data h1 h2
    match data with
    | [] => cases f2 <;> rfl
    | [x] => cases f2 <;> rfl
    | t :: len :: rest =>
      match f2 with
      | 0 => simp at h2
      | f2 + 1 =>
        simp only [List.length_cons] at h1 h2
        have hd1 : (rest.drop len).length ≤ f1 := by
          simp only [List.length_drop]
          omega
        have hd2 : (rest.drop len).length ≤ f2 := by
          simp only [List.length_drop]
          omega
        simp only [parseTLVAux]
        rw [ih f2 (rest.drop len) hd1 hd2]

theorem parseTLV_cons_incomplete (t len : Nat) (rest : List Nat)
    (h : rest.length < len) :
    parseTLV (t :: len :: rest) =
      Except.error ("Incomplete TLV record: expected " ++ toString len ++
        " bytes but only " ++ toString rest.length ++ " remaining") := by
  simp only [parseTLV, List.length_cons, parseTLVAux, if_pos h]

theorem parseTLV_cons_step (t len : Nat) (rest : List Nat) (h : ¬ rest.length < len) :
    parseTLV (t :: len :: rest) =
      (if t = 0 then
        if len ≠ 32 then
          Except.error ("Invalid public key length: " ++ toString len ++ " bytes (expected 32)")
        else
          (parseTLV (rest.drop len)).map
            (fun rs => ⟨t, rest.take len, some "Public key receiver"⟩ :: rs)
      else if t = 1 then
        if len ≠ 32 then
          Except.error ("Invalid shielded receiver length: " ++ toString len ++ " bytes (expected 32)")
        else
          (parseTLV (rest.drop len)).map
            (fun rs => ⟨t, rest.take len, some "Shielded receiver"⟩ :: rs)
      else
        (parseTLV (rest.drop len)).map
          (fun rs => ⟨t, rest.take len, some ("Unknown receiver type " ++ toString t)⟩ :: rs)) := by
  have hfuel : (rest.drop len).length ≤ rest.length + 1 := by
    simp only [List.length_drop]
    omega
  simp only [parseTLV, List.length_cons, parseTLVAux, if_neg h]
  rw [parseTLVAux_fuel (rest.length + 1) (rest.drop len).length (rest.drop len) hfuel le_rfl]

/-- C5: in unified TLV parsing a record with known type 0x00 or 0x01 and
length other than 32 fails the whole validation with the type-specific
length error, while a record of any other type with any length within
the remaining bytes is accepted as an unknown-type receiver and parsing
continues; concretely, a sole record of type 5 and length 3 yields a
valid address with one receiver labeled accordingly. -/
theorem C5_unknown_type_tolerated_known_type_checked :
    (∀ len rest, len ≤ List.length rest → len ≠ 32 →
      parseTLV (0 :: len :: rest) =
        Except.error ("Invalid public key length: " ++ toString len ++ " bytes (expected 32)")) ∧
    (∀ len rest, len ≤ List.length rest → len ≠ 32 →
      parseTLV (1 :: len :: rest) =
        Except.error ("Invalid shielded receiver length: " ++ toString len ++ " bytes (expected 32)")) ∧
    (∀ t len rest, t ≠ 0 → t ≠ 1 → len ≤ List.length rest →
      parseTLV (t :: len :: rest) =
        (parseTLV (rest.drop len)).map
          (fun rs => ⟨t, rest.take len, some ("Unknown receiver type " ++ toString t)⟩ :: rs)) ∧
    validateUnifiedAddress "strku" 1 [5, 3, 1, 2, 3] =
      ⟨true, .unified, none, some ⟨some "strku", some 1, some [5, 3, 1, 2, 3],
        some [⟨5, [1, 2, 3], some "Unknown receiver type 5"⟩], none⟩⟩ := by
  refine ⟨?_, ?_, ?_, by decide⟩
  · intro len rest hle hne
    rw [parseTLV_cons_step 0 len rest (by omega)]
    simp [hne]
  · intro len rest hle hne
    rw [parseTLV_cons_step 1 len rest (by omega)]
    simp [hne]
  · intro t len rest ht0 ht1 hle
    rw [parseTLV_cons_step t len rest (by omega)]
    simp [ht0, ht1]

theorem C5_witness :
    parseTLV [0, 5, 9, 9, 9, 9, 9] =
      Except.error "Invalid public key length: 5 bytes (expected 32)" ∧
    parseTLV [5, 3, 1, 2, 3] =
      Except.ok [⟨5, [1, 2, 3], some "Unknown receiver type 5"⟩] := by
  constructor
  · exact C5_unknown_type_tolerated_known_type_checked.1 5 [9, 9, 9, 9, 9]
      (by decide) (by decide)
  · rw [C5_unknown_type_tolerated_known_type_checked.2.2.1 5 3 [1, 2, 3]
      (by decide) (by decide) (by decide)]
    rfl

/-- C6: a TLV record whose declared length exceeds the bytes remaining
after its two-byte header fails validation with the error stating the
expected and remaining counts; concretely a unified payload whose last
record declares length 32 with 31 bytes left is rejected, never
short-read. -/
theorem C6_truncated_record_rejected :
    (∀ t len rest, List.length rest < len →
      parseTLV (t :: len :: rest) =
        Except.error ("Incomplete TLV record: expected " ++ toString len ++
          " bytes but only " ++ toString (List.length rest) ++ " remaining")) ∧
    validateUnifiedAddress "strku" 1 ([5, 1, 99] ++ [0, 32] ++ List.replicate 31 7) =
      ⟨false, .unified,
        some "Incomplete TLV record: expected 32 bytes but only 31 remaining", none⟩ := by
  refine ⟨?_, by decide⟩
  intro t len rest hlt
  exact parseTLV_cons_incomplete t len rest hlt

theorem C6_witness :
    parseTLV (0 :: 32 :: List.replicate 31 0) =
      Except.error "Incomplete TLV record: expected 32 bytes but only 31 remaining" := by
  rw [C6_truncated_record_rejected.1 0 32 (List.replicate 31 0) (by decide)]
  rfl

/-- C4: validateSimpleAddress applies its rules in order — version
must be 1, then the data must be exactly 32 bytes, then its big-endian
value must not exceed FELT252_MAX — and on success returns the hrp,
version, payload and the big-endian hex felt252 (data is a decoded
Uint8Array, so its entries are below 256). -/
theorem C4_simple_rules_in_order (format : AddressFormat) (hrp : String)
    (version : Nat) (data : List Nat) :
    (version ≠ 1 → validateSimpleAddress format hrp version data =
      ⟨false, format,
        some ("Unsupported version: " ++ toString version ++ " (expected 1)"), none⟩) ∧
    (version = 1 → data.length ≠ 32 → validateSimpleAddress format hrp version data =
      ⟨false, format,
        some ("Invalid data length: " ++ toString data.length ++ " bytes (expected 32)"), none⟩) ∧
    (version = 1 → data.length = 32 → FELT252_MAX < beVal data →
      validateSimpleAddress format hrp version data =
        ⟨false, format,
          some "Address exceeds felt252 maximum value (2^251 - 1)", none⟩) ∧
    (version = 1 → data.length = 32 → beVal data ≤ FELT252_MAX →
      validateSimpleAddress format hrp version data =
        ⟨true, format, none, some ⟨some hrp, some version, some data, none,
          some ("0x" ++ bytesToHex data)⟩⟩) := by
  refine ⟨?_, ?_, ?_, ?_⟩
  · intro h1
    simp [validateSimpleAddress, h1]
  · intro h1 h2
    simp [validateSimpleAddress, h1, h2]
  · intro h1 h2 h3
    simp [validateSimpleAddress, h1, h2, h3]
  · intro h1 h2 h3
    simp [validateSimpleAddress, h1, h2, Nat.not_lt.mpr h3]

theorem C4_witness :
    validateSimpleAddress .public "strk" 1 (List.replicate 32 0) =
      ⟨true, .public, none, some ⟨some "strk", some 1, some (List.replicate 32 0), none,
        some "0x0000000000000000000000000000000000000000000000000000000000000000"⟩⟩ := by
  rw [(C4_simple_rules_in_order .public "strk" 1 (List.replicate 32 0)).2.2.2
    rfl (by decide) (by decide)]
  decide

theorem hex_not_ws {c : Char} (h : isHexChar c = true) : jsWhitespace c = false := by
  cases hb : jsWhitespace c
  · rfl
  · exfalso
    simp only [jsWhitespace, Bool.or_eq_true, beq_iff_eq] at hb
    rcases hb with ((((rfl | rfl) | rfl) | rfl) | rfl) | rfl <;> exact absurd h (by decide)

theorem dropWhile_ws_eq_self (l : List Char) (h : ∀ c ∈ l, jsWhitespace c = false) :
    l.dropWhile jsWhitespace = l := by
  cases l with
  | nil => rfl
  | cons a as =>
    rw [List.dropWhile_cons, if_neg]
    simp [h a (List.mem_cons_self a as)]

theorem trimL_eq_self (l : List Char) (h : ∀ c ∈ l, jsWhitespace c = false) :
    trimL l = l := by
  unfold trimL
  rw [dropWhile_ws_eq_self l h,
    dropWhile_ws_eq_self l.reverse (fun c hc => h c (List.mem_reverse.mp hc)),
    List.reverse_reverse]

theorem hexVal_replicate_zero (n : Nat) (cs : List Char) :
    hexVal (List.replicate n '0' ++ cs) = hexVal cs := by
  induction n with
  | zero => rfl
  | succ n ih =>
    rw [List.replicate_succ, List.cons_append]
    have h0 : (16 : Nat) * 0 + hexDigitVal '0' = 0 := by decide
    simpa [hexVal, List.foldl_cons, h0] using ih

theorem hexChars_not_ws (cs : List Char) (h3 : ∀ c ∈ cs, isHexChar c = true) :
    ∀ c ∈ ('0' :: 'x' :: cs), jsWhitespace c = false := by
  intro c hc
  simp only [List.mem_cons] at hc
  rcases hc with rfl | rfl | hc
  · decide
  · decide
  · exact hex_not_ws (h3 c hc)

theorem validateLegacy_on_hex (cs : List Char) (h1 : cs ≠ []) (h2 : cs.length ≤ 64)
    (h3 : ∀ c ∈ cs, isHexChar c = true) :
    validateLegacyAddress (String.mk ('0' :: 'x' :: cs)) =
      if FELT252_MAX < hexVal cs then
        ⟨false, .legacy, some "Address exceeds felt252 maximum value (2^251 - 1)", none⟩
      else
        ⟨true, .legacy, none, some ⟨none, none, none, none,
          some (String.mk ('0' :: 'x' ::
            (List.replicate (64 - cs.length) '0' ++ cs)))⟩⟩ := by
  have htrim : trimL (String.mk ('0' :: 'x' :: cs)).data = '0' :: 'x' :: cs :=
    trimL_eq_self _ (hexChars_not_ws cs h3)
  have hpre : (['0', 'x'].isPrefixOf ('0' :: 'x' :: cs)) = true := by
    simp [List.isPrefixOf]
  have hall : cs.all isHexChar = true := by
    rw [List.all_eq_true]
    exact h3
  have hlen : ¬ cs.length = 0 := by
    simpa [List.length_eq_zero] using h1
  have hlen64 : ¬ cs.length > 64 := by omega
  simp only [validateLegacyAddress, htrim, List.drop_succ_cons, List.drop_zero,
    hpre, hall, hlen, hlen64, not_true, not_false_iff, if_false, if_neg,
    hexVal_replicate_zero]

theorem validateStarknet_on_hex (cs : List Char) (h3 : ∀ c ∈ cs, isHexChar c = true) :
    validateStarknetAddress (String.mk ('0' :: 'x' :: cs)) =
      validateLegacyAddress (String.mk ('0' :: 'x' :: cs)) := by
  have htrim : trimL (String.mk ('0' :: 'x' :: cs)).data = '0' :: 'x' :: cs :=
    trimL_eq_self _ (hexChars_not_ws cs h3)
  have hdet : detectAddressFormat (String.mk ('0' :: 'x' :: cs)) = .legacy := by
    simp [detectAddressFormat, htrim, List.isPrefixOf]
  simp only [validateStarknetAddress, hdet]
  rfl

/-- C2: a legacy address of 1 to 64 hex digits passes the felt252 bound
check exactly when its value is at most FELT252_MAX: the value
FELT252_MAX validates, FELT252_MAX + 1 fails, every value above the
bound is rejected with the bound error (never clamped or wrapped), and
the 64-f address fails. -/
theorem C2_legacy_felt_boundary :
    (∀ cs : List Char, cs ≠ [] → cs.length ≤ 64 → (∀ c ∈ cs, isHexChar c = true) →
      (hexVal cs = FELT252_MAX →
        (validateStarknetAddress (String.mk ('0' :: 'x' :: cs))).isValid = true) ∧
      (hexVal cs = FELT252_MAX + 1 →
        (validateStarknetAddress (String.mk ('0' :: 'x' :: cs))).isValid = false) ∧
      (FELT252_MAX < hexVal cs →
        validateStarknetAddress (String.mk ('0' :: 'x' :: cs)) =
          ⟨false, .legacy,
            some "Address exceeds felt252 maximum value (2^251 - 1)", none⟩)) ∧
    validateStarknetAddress (String.mk ('0' :: 'x' :: List.replicate 64 'f')) =
      ⟨false, .legacy,
        some "Address exceeds felt252 maximum value (2^251 - 1)", none⟩ := by
  constructor
  · intro cs h1 h2 h3
    have hred : validateStarknetAddress (String.mk ('0' :: 'x' :: cs)) =
        if FELT252_MAX < hexVal cs then
          ⟨false, .legacy, some "Address exceeds felt252 maximum value (2^251 - 1)", none⟩
        else
          ⟨true, .legacy, none, some ⟨none, none, none, none,
            some (String.mk ('0' :: 'x' ::
              (List.replicate (64 - cs.length) '0' ++ cs)))⟩⟩ := by
      rw [validateStarknet_on_hex cs h3, validateLegacy_on_hex cs h1 h2 h3]
    refine ⟨?_, ?_, ?_⟩
    · intro hmax
      rw [hred, if_neg (by omega)]
    · intro hmax
      rw [hred, if_pos (by omega)]
    · intro hgt
      rw [hred, if_pos hgt]
  · decide

theorem C2_witness :
    (validateStarknetAddress
      (String.mk ('0' :: 'x' :: '0' :: '7' :: List.replicate 62 'f'))).isValid = true ∧
    (validateStarknetAddress
      (String.mk ('0' :: 'x' :: '0' :: '8' :: List.replicate 62 '0'))).isValid = false := by
  constructor
  · exact (C2_legacy_felt_boundary.1 ('0' :: '7' :: List.replicate 62 'f')
      (by decide) (by decide) (by decide)).1 (by decide)
  · exact (C2_legacy_felt_boundary.1 ('0' :: '8' :: List.replicate 62 '0')
      (by decide) (by decide) (by decide)).2.1 (by decide)

/-- C3 counterexample: the input 0xABC validates successfully but the
returned felt252 keeps the uppercase hex digits of the input, so it is
not the all-lowercase 64-digit string the claim requires. -/
theorem C3_counterexample :
    ((validateStarknetAddress "0xABC").parsed.bind (fun p => p.felt252)) =
      some "0x0000000000000000000000000000000000000000000000000000000000000ABC" ∧
    ("0x0000000000000000000000000000000000000000000000000000000000000ABC".data.any
      (fun c => c.isUpper)) = true := by
  constructor
  · decide
  · decide

/-- C3 (amended): on every successfully validated legacy input the
returned felt252 is the 0x-prefixed, zero-left-padded 64-digit hex
string whose digits keep the case they had in the (trimmed) input; they
are not lowercased. -/
theorem C3_felt_is_padded_input (input : String)
    (hv : (validateLegacyAddress input).isValid = true) :
    (validateLegacyAddress input).parsed = some ⟨none, none, none, none,
      some (String.mk ('0' :: 'x' ::
        (List.replicate (64 - ((trimL input.data).drop 2).length) '0' ++
          (trimL input.data).drop 2)))⟩ := by
  simp only [validateLegacyAddress] at hv ⊢
  split_ifs at hv ⊢ <;> first
    | rfl
    | exact absurd hv (by decide)

theorem C3_witness :
    (validateLegacyAddress "0xABC").isValid = true ∧
    (validateLegacyAddress "0xABC").parsed = some ⟨none, none, none, none,
      some "0x0000000000000000000000000000000000000000000000000000000000000ABC"⟩ := by
  refine ⟨by decide, ?_⟩
  rw [C3_felt_is_padded_input "0xABC" (by decide)]
  decide

/-- C9 counterexample: a string with leading whitespace before 0x does
not start with any of the four prefixes yet is detected as legacy (the
detector trims first), and the empty string fails with the non-empty
input error rather than the unknown-format message. -/
theorem C9_counterexample :
    (['0', 'x'].isPrefixOf " 0x1".data) = false ∧
    ("strk1".data.isPrefixOf " 0x1".data) = false ∧
    ("strkx1".data.isPrefixOf " 0x1".data) = false ∧
    ("strku1".data.isPrefixOf " 0x1".data) = false ∧
    detectAddressFormat " 0x1" = .legacy ∧
    (validateStarknetAddress "").error = some "Input must be a non-empty string" := by
  refine ⟨by decide, by decide, by decide, by decide, by decide, by decide⟩

/-- C9 (amended): for every string whose trimmed form starts with none
of 0x, strk1, strkx1, strku1, the detector returns unknown; on such
inputs validation fails — with the fixed unknown-format message listing
all supported prefixes when the input is non-empty, and with the
non-empty-input error when the input is the empty string. -/
theorem C9_unknown_for_unmatched_trimmed (s : String)
    (h1 : (['0', 'x'].isPrefixOf (trimL s.data)) = false)
    (h2 : ("strk1".data.isPrefixOf (trimL s.data)) = false)
    (h3 : ("strkx1".data.isPrefixOf (trimL s.data)) = false)
    (h4 : ("strku1".data.isPrefixOf (trimL s.data)) = false) :
    detectAddressFormat s = .unknown ∧
    (s.data ≠ [] → validateStarknetAddress s =
      ⟨false, .unknown,
        some "Unknown address format. Supported formats: 0x... (legacy), strk1... (public), strkx1... (shielded), strku1... (unified)",
        none⟩) ∧
    (s.data = [] → validateStarknetAddress s =
      ⟨false, .unknown, some "Input must be a non-empty string", none⟩) := by
  have hdet : detectAddressFormat s = .unknown := by
    simp [detectAddressFormat, h1, h2, h3, h4]
  refine ⟨hdet, ?_, ?_⟩
  · intro hne
    have hemp : s.data.isEmpty = false := by
      simpa [List.isEmpty_iff] using hne
    simp only [validateStarknetAddress, hemp, hdet]
    rfl
  · intro he
    have hemp : s.data.isEmpty = true := by
      simp [List.isEmpty_iff, he]
    simp only [validateStarknetAddress, hemp]
    rfl

theorem C9_witness :
    detectAddressFormat "hello" = .unknown ∧
    validateStarknetAddress "hello" =
      ⟨false, .unknown,
        some "Unknown address format. Supported formats: 0x... (legacy), strk1... (public), strkx1... (shielded), strku1... (unified)",
        none⟩ := by
  obtain ⟨hd, hv, _⟩ := C9_unknown_for_unmatched_trimmed "hello"
    (by decide) (by decide) (by decide) (by decide)
  exact ⟨hd, hv (by decide)⟩

theorem extractBytesAux_bound (fuel : Nat) : ∀ (value bits : Nat),
    ∀ b ∈ (extractBytesAux fuel value bits).1, b < 256 := by
  induction fuel with
  | zero =>
    intro value bits b hb
    simp [extractBytesAux] at hb
  | succ fuel ih =>
    intro value bits b hb
    simp only [extractBytesAux] at hb
    split at hb
    · simp only [List.mem_cons] at hb
      rcases hb with rfl | hb
      · exact Nat.mod_lt _ (by norm_num)
      · exact ih value (bits - 8) b hb
    · simp at hb

theorem extractBytes_bound (value bits : Nat) :
    ∀ b ∈ (extractBytes value bits).1, b < 256 :=
  extractBytesAux_bound bits value bits

theorem fromWordsAux_bound (ws : List Nat) : ∀ (value bits : Nat) (out : List Nat),
    fromWordsAux ws value bits = Except.ok out → ∀ b ∈ out, b < 256 := by
  induction ws with
  | nil =>
    intro value bits out h b hb
    simp only [fromWordsAux] at h
    split at h
    · exact absurd h (by simp)
    · split at h
      · exact absurd h (by simp)
      · obtain rfl : ([] : List Nat) = out := by simpa using h
        simp at hb
  | cons v vs ih =>
    intro value bits out h b hb
    simp only [fromWordsAux] at h
    cases hrec : fromWordsAux vs ((value <<< 5) ||| v)
        (extractBytes ((value <<< 5) ||| v) (bits + 5)).2 with
    | error e =>
      rw [hrec] at h
      simp [Except.map] at h
    | ok out' =>
      rw [hrec] at h
      simp only [Except.map, Except.ok.injEq] at h
      subst h
      rcases List.mem_append.mp hb with hb | hb
      · exact extractBytes_bound _ _ b hb
      · exact ih _ _ _ hrec b hb

theorem except_map_cons_ok (f : Except String (List Receiver)) (recv : Receiver)
    (rs : List Receiver)
    (h : f.map (fun l => recv :: l) = Except.ok rs) :
    ∃ rs', f = Except.ok rs' ∧ rs = recv :: rs' := by
  cases f with
  | error e => simp [Except.map] at h
  | ok l =>
    refine ⟨l, rfl, ?_⟩
    simpa [Except.map] using h.symm

theorem parseTLVAux_bound (fuel : Nat) : ∀ (data : List Nat) (rs : List Receiver),
    (∀ b ∈ data, b < 256) → parseTLVAux fuel data = Except.ok rs →
    ∀ r ∈ rs, r.data.length ≤ 255 := by
  induction fuel with
  | zero =>
    intro data rs hb h r hr
    match data with
    | [] =>
      obtain rfl : ([] : List Receiver) = rs := by simpa [parseTLVAux] using h
      simp at hr
    | [x] => simp [parseTLVAux] at h
    | a :: b' :: l => simp [parseTLVAux] at h
  | succ fuel ih =>
    intro data rs hb h r hr
    match data with
    | [] =>
      obtain rfl : ([] : List Receiver) = rs := by simpa [parseTLVAux] using h
      simp at hr
    | [x] => simp [parseTLVAux] at h
    | t :: len :: rest =>
      simp only [parseTLVAux] at h
      split at h
      · simp at h
      · rename_i hlen
        have hlen255 : len < 256 := hb len (by simp)
        have hrest : ∀ b ∈ rest.drop len, b < 256 := fun b hbm =>
          hb b (List.mem_cons_of_mem _ (List.mem_cons_of_mem _ (List.drop_subset len rest hbm)))
        have htake : (rest.take len).length ≤ 255 := by
          simp only [List.length_take]
          omega
        split at h
        · split at h
          · exact absurd h (by simp)
          · obtain ⟨rs', hrec, rfl⟩ := except_map_cons_ok _ _ _ h
            rcases List.mem_cons.mp hr with rfl | hr
            · exact htake
            · exact ih (rest.drop len) rs' hrest hrec r hr
        · split at h
          · split at h
            · exact absurd h (by simp)
            · obtain ⟨rs', hrec, rfl⟩ := except_map_cons_ok _ _ _ h
              rcases List.mem_cons.mp hr with rfl | hr
              · exact htake
              · exact ih (rest.drop len) rs' hrest hrec r hr
          · obtain ⟨rs', hrec, rfl⟩ := except_map_cons_ok _ _ _ h
            rcases List.mem_cons.mp hr with rfl | hr
            · exact htake
            · exact ih (rest.drop len) rs' hrest hrec r hr

theorem validateUnified_receiver_bound (hrp : String) (version : Nat) (data : List Nat)
    (p : ParsedData) (rs : List Receiver) (hb : ∀ b ∈ data, b < 256)
    (hp : (validateUnifiedAddress hrp version data).parsed = some p)
    (hrs : p.receivers = some rs) :
    ∀ r ∈ rs, r.data.length ≤ 255 := by
  simp only [validateUnifiedAddress] at hp
  split at hp
  · simp at hp
  · split at hp
    · simp at hp
    · rename_i receivers hparse
      split at hp
      · simp at hp
      · obtain rfl : (⟨some hrp, some version, some data, some receivers, none⟩ : ParsedData) = p := by
          simpa using hp
        obtain rfl : receivers = rs := by simpa using hrs
        exact parseTLVAux_bound data.length data _ hb hparse

theorem validateSimple_receivers_none (format : AddressFormat) (hrp : String)
    (version : Nat) (data : List Nat) (p : ParsedData)
    (hp : (validateSimpleAddress format hrp version data).parsed = some p) :
    p.receivers = none := by
  simp only [validateSimpleAddress] at hp
  split_ifs at hp
  all_goals first
    | (injection hp with hpe; rw [← hpe])
    | simp at hp

theorem validateLegacy_receivers_none (input : String) (p : ParsedData)
    (hp : (validateLegacyAddress input).parsed = some p) :
    p.receivers = none := by
  simp only [validateLegacyAddress] at hp
  split_ifs at hp
  all_goals first
    | (injection hp with hpe; rw [← hpe])
    | simp at hp

theorem validateBech32_receiver_bound (input : String) (f : AddressFormat)
    (p : ParsedData) (rs : List Receiver)
    (hp : (validateBech32Address input f).parsed = some p)
    (hrs : p.receivers = some rs) :
    ∀ r ∈ rs, r.data.length ≤ 255 := by
  simp only [validateBech32Address] at hp
  split at hp
  · simp at hp
  · split at hp
    · simp at hp
    · split at hp
      · simp at hp
      · rename_i hfw
        split at hp
        · simp at hp
        · split at hp
          · refine validateUnified_receiver_bound _ _ _ p rs ?_ hp hrs
            intro b hbm
            exact fromWordsAux_bound _ 0 0 _ hfw b (List.mem_cons_of_mem _ hbm)
          · have hnone := validateSimple_receivers_none _ _ _ _ p hp
            rw [hrs] at hnone
            simp at hnone

/-- C10: whenever validation succeeds with parsed receivers, every
receiver's data is at most 255 bytes long, because each TLV length is
read from a single byte of the decoded payload. -/
theorem C10_receiver_length_bounded (s : String) (p : ParsedData) (rs : List Receiver)
    (hp : (validateStarknetAddress s).parsed = some p)
    (hrs : p.receivers = some rs) :
    ∀ r ∈ rs, r.data.length ≤ 255 := by
  simp only [validateStarknetAddress] at hp
  split at hp
  · simp at hp
  · split at hp
    · have hnone := validateLegacy_receivers_none _ _ hp
      rw [hrs] at hnone
      simp at hnone
    · exact validateBech32_receiver_bound _ _ _ _ hp hrs
    · exact validateBech32_receiver_bound _ _ _ _ hp hrs
    · exact validateBech32_receiver_bound _ _ _ _ hp hrs
    · simp at hp

theorem C10_witness :
    (validateStarknetAddress uniTestAddr).parsed = some uniTestParsed ∧
    uniTestReceiver.data.length ≤ 255 := by
  constructor
  · decide
  · exact C10_receiver_length_bounded uniTestAddr uniTestParsed [uniTestReceiver]
      (by decide) (by decide) uniTestReceiver (by simp)

end StarknetValidator
